import Mathlib

/-!
Verification of the todo-list service (FARM-stack todo app).

The HTTP route layer is embedded from `src/backend/src/server.py`.  The
data-access layer (`dal.py`, imported by the server as `ToDoDAL`) is not part
of the provided sources, so its operations are modelled from the spec
(section 4.2 "Data-Access Layer"); each such definition carries a doc comment
starting with "Modelled from the spec:".

Identifiers: the spec fixes the identifier format to a 24-hex-character value
(the store's native id generation, i.e. a BSON ObjectId), always serialized
to and from the API as its hex string form.  We model a native identifier as
a natural number and its wire form as the 24-character lowercase hex string
of its value modulo 16^24.
-/

namespace TodoApp

/-- Lowercase hex digit character for a value below 16. -/
def hexChar (n : Nat) : Char :=
  if n < 10 then Char.ofNat (48 + n) else Char.ofNat (87 + n)

/-- Value of a hex digit character: digits 0-9 and lowercase a-f. -/
def hexVal (c : Char) : Option Nat :=
  if 48 ≤ c.toNat ∧ c.toNat ≤ 57 then some (c.toNat - 48)
  else if 97 ≤ c.toNat ∧ c.toNat ≤ 102 then some (c.toNat - 87)
  else none

/-- The `k` least significant hex digits of `n`, most significant first. -/
def hexDigits : Nat → Nat → List Char
  | 0, _ => []
  | k + 1, n => hexDigits k (n / 16) ++ [hexChar (n % 16)]

/-- The 24-hex-character wire form of a native identifier, as produced by
serializing the store's native id (`str(ObjectId)`). -/
def oidToString (n : Nat) : String :=
  String.mk (hexDigits 24 n)

/-- Accumulating hex parser over a character list; fails on any non-hex
character. -/
def parseHexAux : List Char → Nat → Option Nat
  | [], acc => some acc
  | c :: cs, acc =>
    match hexVal c with
    | none => none
    | some v => parseHexAux cs (acc * 16 + v)

/-- Parse a wire identifier: succeeds exactly on 24-character lowercase hex
strings, mirroring `ObjectId(s)` which raises on malformed input (the DAL
treats that as not-found). -/
def parseOid (s : String) : Option Nat :=
  if s.data.length = 24 then parseHexAux s.data 0 else none

/-! ## Data model

Stored documents use native identifiers (modelled as `Nat`); the API-facing
entities carry the serialized string form, mirroring the projection the spec
assigns to the DAL. -/

/-- An item embedded in a stored list document: generated native id, label,
and the checked flag (defaults to false at creation). -/
structure Item where
  id : Nat
  label : String
  checked_state : Bool
deriving Repr, DecidableEq

/-- A stored todo-list document: store-assigned native id, name, and the
ordered sequence of embedded items. -/
structure ToDoListDoc where
  id : Nat
  name : String
  items : List Item
deriving Repr, DecidableEq

/-- The single collection of todo-list documents, plus the generator state
for fresh native identifiers (the store's id generation, which never repeats
an id within a run). -/
structure Store where
  docs : List ToDoListDoc
  nextOid : Nat
deriving Repr, DecidableEq

/-- API item shape: `{id: string, label: string, checked_state: bool}`. -/
structure ToDoItem where
  id : String
  label : String
  checked_state : Bool
deriving Repr, DecidableEq

/-- API full-list shape: `{id: string, name: string, items: [...]}`. -/
structure ToDoList where
  id : String
  name : String
  items : List ToDoItem
deriving Repr, DecidableEq

/-- API summary shape: `{id: string, name: string, item_count: int,
checked_count: int}`. -/
structure ListSummary where
  id : String
  name : String
  item_count : Nat
  checked_count : Nat
deriving Repr, DecidableEq

/-- Projection of an embedded item to the API shape (native id serialized). -/
def projectItem (it : Item) : ToDoItem :=
  ⟨oidToString it.id, it.label, it.checked_state⟩

/-- Projection of a stored document to the API full-list shape. -/
def projectList (d : ToDoListDoc) : ToDoList :=
  ⟨oidToString d.id, d.name, d.items.map projectItem⟩

/-- Modelled from the spec: the per-document summary computed by
`list_todo_lists` — item count and checked count obtained by scanning the
embedded items. -/
def summarize (d : ToDoListDoc) : ListSummary :=
  ⟨oidToString d.id, d.name, d.items.length,
    (d.items.filter (fun it => it.checked_state)).length⟩

/-- Replace the first element satisfying `p` by its image under `f`,
mirroring the store's update-one semantics (at most one document updated,
the first match). -/
def updateFirst (p : α → Bool) (f : α → α) : List α → List α
  | [] => []
  | x :: xs => if p x then f x :: xs else x :: updateFirst p f xs

/-! ## Data-access layer

The DAL source (`dal.py`) is not among the provided files; each operation
below is modelled from the spec, section 4.2. -/

/-- Modelled from the spec: `list_todo_lists()` produces one `ListSummary`
per stored document in the store's natural iteration order. -/
def list_todo_lists (s : Store) : List ListSummary :=
  s.docs.map summarize

/-- Modelled from the spec: `create_todo_list(name)` inserts a new document
with the given name and an empty item sequence and returns the newly
assigned identifier as a string. -/
def create_todo_list (s : Store) (name : String) : String × Store :=
  (oidToString s.nextOid, ⟨s.docs ++ [⟨s.nextOid, name, []⟩], s.nextOid + 1⟩)

/-- Modelled from the spec: `get_todo_list(id)` fetches the document by
identifier and projects it; no match (or an unparsable id) signals
not-found. -/
def get_todo_list (s : Store) (id : String) : Option ToDoList :=
  match parseOid id with
  | none => none
  | some oid => (s.docs.find? (fun d => d.id == oid)).map projectList

/-- Modelled from the spec: `delete_todo_list(id)` removes the document by
identifier and returns whether exactly one document was removed; an
unparsable id removes nothing and returns false. -/
def delete_todo_list (s : Store) (id : String) : Bool × Store :=
  match parseOid id with
  | none => (false, s)
  | some oid =>
    if s.docs.any (fun d => d.id == oid) then
      (true, ⟨s.docs.eraseP (fun d => d.id == oid), s.nextOid⟩)
    else
      (false, s)

/-- Modelled from the spec: `create_item(list_id, label)` atomically appends
a fresh item (generated id, given label, checked_state = false) to the
matching document and returns the post-update projection; a missing list (or
an unparsable id) signals not-found. -/
def create_item (s : Store) (list_id : String) (label : String) :
    Option ToDoList × Store :=
  match parseOid list_id with
  | none => (none, s)
  | some oid =>
    match s.docs.find? (fun d => d.id == oid) with
    | none => (none, s)
    | some d =>
      let d' : ToDoListDoc := ⟨d.id, d.name, d.items ++ [⟨s.nextOid, label, false⟩]⟩
      (some (projectList d'),
        ⟨updateFirst (fun e => e.id == oid) (fun _ => d') s.docs, s.nextOid + 1⟩)

/-- The document-level effect of the store's positional update: set the
checked flag of the first item matching `iid` inside one document. -/
def setItemChecked (state : Bool) (iid : Nat) (d : ToDoListDoc) : ToDoListDoc :=
  ⟨d.id, d.name,
    updateFirst (fun it => it.id == iid) (fun it => ⟨it.id, it.label, state⟩) d.items⟩

/-- Modelled from the spec: `set_checked_state(list_id, item_id, state)`
atomically sets the checked flag of the item matching `item_id` inside the
document matching `list_id` (the search is constrained to that document) and
returns the post-update projection; if either does not match, or an id is
unparsable, it signals not-found. -/
def set_checked_state (s : Store) (list_id item_id : String) (state : Bool) :
    Option ToDoList × Store :=
  match parseOid list_id, parseOid item_id with
  | some lid, some iid =>
    match s.docs.find? (fun d => d.id == lid && d.items.any (fun it => it.id == iid)) with
    | none => (none, s)
    | some d =>
      (some (projectList (setItemChecked state iid d)),
        ⟨updateFirst (fun e => e.id == lid && e.items.any (fun it => it.id == iid))
          (setItemChecked state iid) s.docs, s.nextOid⟩)
  | _, _ => (none, s)

/-! ## HTTP route layer (from `server.py`) -/

/-- JSON values, for modelling request bodies as the route layer sees them. -/
inductive Json where
  | null
  | bool (b : Bool)
  | num (n : Int)
  | str (s : String)
  | arr (elts : List Json)
  | obj (fields : List (String × Json))
deriving Repr

/-- Validation of the `NewList` pydantic model (`class NewList: name: str`):
the body must be a JSON object whose `name` field is present and is a
string; any string value, the empty string included, is accepted. -/
def validateNewList (body : Json) : Option String :=
  match body with
  | .obj fields =>
    match fields.lookup "name" with
    | some (.str s) => some s
    | _ => none
  | _ => none

/-- The POST /api/lists route handler: pydantic validation failure yields a
422 with no DAL call; otherwise `create_todo_list` runs and a 201 with
`{id, name}` is returned. -/
def create_todo_list_route (s : Store) (body : Json) :
    (Nat × Option (String × String)) × Store :=
  match validateNewList body with
  | none => ((422, none), s)
  | some name =>
    let r := create_todo_list s name
    ((201, some (r.1, name)), r.2)

/-- The GET /api/dummy route handler (from `server.py`): returns a freshly
generated identifier string and the current time, touching no stored
document.  The id generator value and the clock reading are passed in
explicitly. -/
def get_dummy_route (s : Store) (gen : Nat) (now : Nat) :
    (Nat × String × Nat) × Store :=
  ((200, oidToString gen, now), s)

/-- Well-formedness of a store state, assumed where wire serialization must
round trip: every native id fits in 24 hex digits, item ids are unique
within each document, and document ids are unique across the collection
(the store's primary-key guarantee on `_id`). -/
def StoreWF (s : Store) : Prop :=
  (∀ d ∈ s.docs, d.id < 16 ^ 24 ∧ (∀ it ∈ d.items, it.id < 16 ^ 24) ∧
    (d.items.map Item.id).Nodup) ∧
  (s.docs.map ToDoListDoc.id).Nodup

/-- Store states reachable from the service's initial empty collection by
any sequence of the four mutating operations. -/
inductive Reachable : Store → Prop where
  | empty : Reachable ⟨[], 0⟩
  | createList (s : Store) (name : String) :
      Reachable s → Reachable (create_todo_list s name).2
  | createItem (s : Store) (lid lbl : String) :
      Reachable s → Reachable (create_item s lid lbl).2
  | setChecked (s : Store) (lid iid : String) (st : Bool) :
      Reachable s → Reachable (set_checked_state s lid iid st).2
  | deleteList (s : Store) (lid : String) :
      Reachable s → Reachable (delete_todo_list s lid).2

/-- The inductive invariant behind item-id uniqueness: every item id in the
store is below the generator value, and item ids are unique within each
document. -/
def StoreItemInv (s : Store) : Prop :=
  ∀ d ∈ s.docs, (∀ it ∈ d.items, it.id < s.nextOid) ∧ (d.items.map Item.id).Nodup

/-! ## Lemmas about identifier serialization -/

theorem hexVal_hexChar (m : Nat) (hm : m < 16) : hexVal (hexChar m) = some m := by
  interval_cases m <;> decide

theorem length_hexDigits (k n : Nat) : (hexDigits k n).length = k := by
  induction k generalizing n with
  | zero => rfl
  | succ k ih => simp [hexDigits, ih]

theorem hexDigits_all_hex (k n : Nat) :
    ∀ c ∈ hexDigits k n, (hexVal c).isSome := by
  induction k generalizing n with
  | zero => intro c hc; simp [hexDigits] at hc
  | succ k ih =>
    intro c hc
    simp only [hexDigits, List.mem_append, List.mem_singleton] at hc
    rcases hc with hc | hc
    · exact ih (n / 16) c hc
    · subst hc
      rw [hexVal_hexChar (n % 16) (Nat.mod_lt n (by norm_num))]
      rfl

theorem parseHexAux_append (xs ys : List Char) (acc : Nat) :
    parseHexAux (xs ++ ys) acc =
      match parseHexAux xs acc with
      | none => none
      | some a => parseHexAux ys a := by
  induction xs generalizing acc with
  | nil => rfl
  | cons c cs ih =>
    simp only [List.cons_append, parseHexAux]
    cases hexVal c with
    | none => rfl
    | some v => exact ih (acc * 16 + v)

theorem parseHexAux_hexDigits (k n acc : Nat) :
    parseHexAux (hexDigits k n) acc = some (acc * 16 ^ k + n % 16 ^ k) := by
  induction k generalizing n acc with
  | zero => simp [hexDigits, parseHexAux, Nat.mod_one]
  | succ k ih =>
    rw [hexDigits, parseHexAux_append, ih]
    simp only [parseHexAux, hexVal_hexChar (n % 16) (Nat.mod_lt n (by norm_num))]
    congr 1
    rw [pow_succ, mul_comm (16 ^ k) 16, Nat.mod_mul]
    ring

/-- Round trip: parsing a serialized identifier recovers its value modulo
the 24-hex-digit range. -/
theorem parseOid_oidToString (n : Nat) :
    parseOid (oidToString n) = some (n % 16 ^ 24) := by
  unfold parseOid oidToString
  simp only [String.data]
  rw [if_pos (length_hexDigits 24 n), parseHexAux_hexDigits]
  simp

theorem parseOid_oidToString_of_lt (n : Nat) (hn : n < 16 ^ 24) :
    parseOid (oidToString n) = some n := by
  rw [parseOid_oidToString, Nat.mod_eq_of_lt hn]


/-! ## General lemmas about the helpers -/

theorem oidToString_inj {a b : Nat} (ha : a < 16 ^ 24) (hb : b < 16 ^ 24)
    (h : oidToString a = oidToString b) : a = b := by
  have h1 := parseOid_oidToString_of_lt a ha
  have h2 := parseOid_oidToString_of_lt b hb
  rw [h, h2] at h1
  exact (Option.some.inj h1).symm

theorem updateFirst_decomp {α : Type} (p : α → Bool) (f : α → α) (l : List α) (d : α)
    (h : l.find? p = some d) :
    ∃ l₁ l₂, l = l₁ ++ d :: l₂ ∧ (∀ x ∈ l₁, p x = false) ∧ p d = true ∧
      updateFirst p f l = l₁ ++ f d :: l₂ := by
  induction l with
  | nil => simp at h
  | cons x xs ih =>
    cases hx : p x with
    | true =>
      rw [List.find?_cons_of_pos _ hx] at h
      injection h with h
      subst h
      exact ⟨[], xs, rfl, by simp, hx, by simp [updateFirst, hx]⟩
    | false =>
      rw [List.find?_cons_of_neg _ (by simp [hx])] at h
      obtain ⟨l₁, l₂, hl, hl₁, hpd, hu⟩ := ih h
      refine ⟨x :: l₁, l₂, by simp [hl], ?_, hpd, by simp [updateFirst, hx, hu]⟩
      intro y hy
      rcases List.mem_cons.mp hy with rfl | hy
      · exact hx
      · exact hl₁ y hy

theorem length_updateFirst {α : Type} (p : α → Bool) (f : α → α) (l : List α) :
    (updateFirst p f l).length = l.length := by
  induction l with
  | nil => rfl
  | cons x xs ih => by_cases hx : p x <;> simp [updateFirst, hx, ih]

theorem map_updateFirst {α β : Type} (p : α → Bool) (f : α → α) (g : α → β) (l : List α)
    (h : ∀ x, g (f x) = g x) :
    (updateFirst p f l).map g = l.map g := by
  induction l with
  | nil => rfl
  | cons x xs ih => by_cases hx : p x <;> simp [updateFirst, hx, ih, h]

theorem find?_updateFirst {α : Type} (q p : α → Bool) (f : α → α) (l : List α) (d : α)
    (h : l.find? q = some d) (hpq : ∀ x, p x = true → q x = true)
    (hpd : p d = true) (hqf : q (f d) = true) :
    (updateFirst p f l).find? q = some (f d) := by
  induction l with
  | nil => simp at h
  | cons x xs ih =>
    cases hqx : q x with
    | true =>
      rw [List.find?_cons_of_pos _ hqx] at h
      injection h with h
      subst h
      simp only [updateFirst, hpd, if_true]
      exact List.find?_cons_of_pos _ hqf
    | false =>
      have hpx : ¬ p x = true := fun hp2 => by simp [hpq x hp2] at hqx
      rw [List.find?_cons_of_neg _ (by simp [hqx])] at h
      simp only [updateFirst, if_neg hpx]
      rw [List.find?_cons_of_neg _ (by simp [hqx])]
      exact ih h

theorem find?_eq_some_of_unique {α : Type} (p : α → Bool) (l : List α) (d : α)
    (hmem : d ∈ l) (hd : p d = true) (huniq : ∀ x ∈ l, p x = true → x = d) :
    l.find? p = some d := by
  induction l with
  | nil => simp at hmem
  | cons x xs ih =>
    cases hx : p x with
    | true =>
      rw [List.find?_cons_of_pos _ hx, huniq x (List.mem_cons_self x xs) hx]
    | false =>
      rw [List.find?_cons_of_neg _ (by simp [hx])]
      have hdxs : d ∈ xs := by
        rcases List.mem_cons.mp hmem with rfl | hmm
        · simp [hd] at hx
        · exact hmm
      exact ih hdxs (fun y hy hpy => huniq y (List.mem_cons_of_mem _ hy) hpy)

theorem updateFirst_eq_map {α : Type} (p : α → Bool) (f : α → α) (l : List α)
    (h : l.countP p ≤ 1) :
    updateFirst p f l = l.map (fun x => if p x then f x else x) := by
  induction l with
  | nil => rfl
  | cons x xs ih =>
    rw [List.countP_cons] at h
    cases hx : p x with
    | true =>
      have h0 : xs.countP p = 0 := by
        rw [hx] at h
        simp at h
        exact List.countP_eq_zero.mpr (fun a ha => by simp [h a ha])
      have hnone : ∀ y ∈ xs, ¬ p y = true := List.countP_eq_zero.mp h0
      have hmapid : xs.map (fun y => if p y then f y else y) = xs := by
        rw [List.map_congr_left (fun y hy => if_neg (hnone y hy))]
        exact List.map_id xs
      simp [updateFirst, hx, hmapid]
    | false =>
      rw [hx] at h
      simp only [if_false, Bool.false_eq_true] at h
      simp only [updateFirst, hx, Bool.false_eq_true, if_false, List.map_cons]
      rw [ih (by omega)]

theorem updateFirst_stable {α : Type} (p : α → Bool) (f : α → α) (l : List α)
    (hp : ∀ x, p x = true → p (f x) = true)
    (hf : ∀ x, p x = true → f (f x) = f x) :
    updateFirst p f (updateFirst p f l) = updateFirst p f l := by
  induction l with
  | nil => rfl
  | cons x xs ih =>
    cases hx : p x with
    | true => simp [updateFirst, hx, hp x hx, hf x hx]
    | false => simp [updateFirst, hx, ih]

theorem countP_le_one_of_nodup_map {α : Type} (g : α → Nat) (v : Nat) (l : List α)
    (h : (l.map g).Nodup) : l.countP (fun x => g x == v) ≤ 1 := by
  induction l with
  | nil => simp
  | cons x xs ih =>
    rw [List.map_cons, List.nodup_cons] at h
    rw [List.countP_cons]
    cases hx : (g x == v) with
    | false => simpa using ih h.2
    | true =>
      have hv : g x = v := by simpa using hx
      have h0 : xs.countP (fun y => g y == v) = 0 := by
        rw [List.countP_eq_zero]
        intro y hy hpy
        have hyv : g y = v := by simpa using hpy
        exact h.1 (by rw [hv, ← hyv]; exact List.mem_map_of_mem g hy)
      rw [h0]
      simp

theorem parseHexAux_none_of_bad {cs : List Char} {c : Char}
    (hc : c ∈ cs) (hbad : hexVal c = none) (acc : Nat) :
    parseHexAux cs acc = none := by
  induction cs generalizing acc with
  | nil => simp at hc
  | cons x xs ih =>
    rcases List.mem_cons.mp hc with rfl | hmm
    · simp [parseHexAux, hbad]
    · cases hx : hexVal x with
      | none => simp [parseHexAux, hx]
      | some v => simp [parseHexAux, hx]; exact ih hmm _

theorem parseOid_eq_none_of_malformed {id : String}
    (h : id.data.length ≠ 24 ∨ ∃ c ∈ id.data, hexVal c = none) :
    parseOid id = none := by
  rcases h with h | ⟨c, hc, hbad⟩
  · rw [parseOid, if_neg h]
  · rw [parseOid]
    by_cases hl : id.data.length = 24
    · rw [if_pos hl]
      exact parseHexAux_none_of_bad hc hbad 0
    · rw [if_neg hl]

theorem any_id_updateFirst (q : Item → Bool) (f : Item → Item)
    (hf : ∀ x, (f x).id = x.id) (l : List Item) (v : Nat) :
    (updateFirst q f l).any (fun it => it.id == v) = l.any (fun it => it.id == v) := by
  induction l with
  | nil => rfl
  | cons x xs ih => by_cases hx : q x <;> simp [updateFirst, hx, ih, hf]

theorem setItemChecked_stable (st : Bool) (iid : Nat) (x : ToDoListDoc) :
    setItemChecked st iid (setItemChecked st iid x) = setItemChecked st iid x := by
  show (⟨x.id, x.name,
      updateFirst (fun it => it.id == iid) (fun it => ⟨it.id, it.label, st⟩)
        (updateFirst (fun it => it.id == iid) (fun it => ⟨it.id, it.label, st⟩)
          x.items)⟩ : ToDoListDoc) = setItemChecked st iid x
  rw [updateFirst_stable (fun it => it.id == iid)
    (fun it => (⟨it.id, it.label, st⟩ : Item)) x.items (fun y hy => hy) (fun y hy => rfl)]
  rfl

theorem setItemChecked_id (st : Bool) (iid : Nat) (x : ToDoListDoc) :
    (setItemChecked st iid x).id = x.id := rfl

theorem setItemChecked_any (st : Bool) (iid : Nat) (x : ToDoListDoc) :
    (setItemChecked st iid x).items.any (fun it => it.id == iid) =
      x.items.any (fun it => it.id == iid) :=
  any_id_updateFirst (fun it => it.id == iid)
    (fun it => (⟨it.id, it.label, st⟩ : Item)) (fun y => rfl) x.items iid

/-- Core lemma for set_checked_state on a well-formed store: setting the
checked state of an item obtained from a get succeeds, a get on the
post-state returns exactly the returned projection, well-formedness is
preserved, and the returned item sequence is the original with precisely
the addressed item's checked flag replaced. -/
theorem set_checked_state_master (s : Store) (L : String) (st : Bool)
    (tl0 : ToDoList) (it0 : ToDoItem)
    (hWF : StoreWF s) (h1 : get_todo_list s L = some tl0) (h2 : it0 ∈ tl0.items) :
    ∃ tl₁ s₁, set_checked_state s L it0.id st = (some tl₁, s₁) ∧
      get_todo_list s₁ L = some tl₁ ∧ StoreWF s₁ ∧ s₁.nextOid = s.nextOid ∧
      tl₁.items = tl0.items.map
        (fun it => if it.id == it0.id then ⟨it.id, it.label, st⟩ else it) := by
  cases hL : parseOid L with
  | none => simp [get_todo_list, hL] at h1
  | some lid =>
    simp only [get_todo_list, hL] at h1
    obtain ⟨d, hd, hproj⟩ := Option.map_eq_some'.mp h1
    have hdm : d ∈ s.docs := List.mem_of_find?_eq_some hd
    obtain ⟨hdlt, hitlt, hitnd⟩ := hWF.1 d hdm
    have hitems0 : tl0.items = d.items.map projectItem := by rw [← hproj]; rfl
    rw [hitems0] at h2
    obtain ⟨itn, hitn, hit0⟩ := List.mem_map.mp h2
    have hid0 : it0.id = oidToString itn.id := by rw [← hit0]; rfl
    have hpI : parseOid it0.id = some itn.id := by
      rw [hid0]
      exact parseOid_oidToString_of_lt _ (hitlt itn hitn)
    have hqd := List.find?_some hd
    have hpd : (d.id == lid && d.items.any (fun it => it.id == itn.id)) = true := by
      rw [Bool.and_eq_true]
      exact ⟨hqd, List.any_eq_true.mpr ⟨itn, hitn, by simp⟩⟩
    have hfind : s.docs.find?
        (fun e => e.id == lid && e.items.any (fun it => it.id == itn.id)) = some d := by
      refine find?_eq_some_of_unique _ s.docs d hdm hpd ?_
      intro x hx hpx
      rw [Bool.and_eq_true] at hpx
      exact List.inj_on_of_nodup_map hWF.2 hx hdm
        (by rw [beq_iff_eq.mp hpx.1, beq_iff_eq.mp hqd])
    have hset : set_checked_state s L it0.id st =
        (some (projectList (setItemChecked st itn.id d)),
         ⟨updateFirst (fun e => e.id == lid && e.items.any (fun it => it.id == itn.id))
            (setItemChecked st itn.id) s.docs, s.nextOid⟩) := by
      simp [set_checked_state, hL, hpI, hfind]
    refine ⟨projectList (setItemChecked st itn.id d), _, hset, ?_, ?_, rfl, ?_⟩
    · simp only [get_todo_list, hL]
      have hq' : ((setItemChecked st itn.id d).id == lid) = true := hqd
      have hfu := find?_updateFirst (fun e => e.id == lid)
        (fun e => e.id == lid && e.items.any (fun it => it.id == itn.id))
        (setItemChecked st itn.id) s.docs d hd
        (fun x hx => by rw [Bool.and_eq_true] at hx; exact hx.1) hpd hq'
      rw [hfu]
      rfl
    · obtain ⟨l₁, l₂, hsplit, hl₁, _, hupd⟩ :=
        updateFirst_decomp _ (setItemChecked st itn.id) s.docs d hfind
      have hmapid : (setItemChecked st itn.id d).items.map Item.id =
          d.items.map Item.id :=
        map_updateFirst _ _ _ _ (fun x => rfl)
      constructor
      · intro e he
        rw [hupd] at he
        rcases List.mem_append.mp he with he | he
        · exact hWF.1 e (by rw [hsplit]; exact List.mem_append_left _ he)
        · rcases List.mem_cons.mp he with rfl | he
          · refine ⟨hdlt, ?_, ?_⟩
            · intro it hit
              have hmm : it.id ∈ d.items.map Item.id := by
                rw [← hmapid]
                exact List.mem_map_of_mem _ hit
              obtain ⟨it₂, hit₂, hide⟩ := List.mem_map.mp hmm
              rw [← hide]
              exact hitlt it₂ hit₂
            · rw [hmapid]
              exact hitnd
          · exact hWF.1 e
              (by rw [hsplit]; exact List.mem_append_right _ (List.mem_cons_of_mem _ he))
      · have hdm2 : (updateFirst
            (fun e => e.id == lid && e.items.any (fun it => it.id == itn.id))
            (setItemChecked st itn.id) s.docs).map ToDoListDoc.id =
            s.docs.map ToDoListDoc.id :=
          map_updateFirst _ _ _ _ (fun x => rfl)
        rw [hdm2]
        exact hWF.2
    · have hcount : d.items.countP (fun it => it.id == itn.id) ≤ 1 :=
        countP_le_one_of_nodup_map Item.id itn.id d.items hitnd
      have hupdi : (setItemChecked st itn.id d).items =
          d.items.map (fun it => if it.id == itn.id then ⟨it.id, it.label, st⟩ else it) :=
        updateFirst_eq_map _ _ _ hcount
      show (setItemChecked st itn.id d).items.map projectItem = _
      rw [hupdi, hitems0, List.map_map, List.map_map]
      refine List.map_congr_left ?_
      intro a ha
      by_cases hcase : a.id = itn.id
      · simp [Function.comp, projectItem, hcase, hid0]
      · have hs : (oidToString a.id == oidToString itn.id) = false := by
          rw [beq_eq_false_iff_ne]
          intro he
          exact hcase (oidToString_inj (hitlt a ha) (hitlt itn hitn) he)
        simp [Function.comp, projectItem, hcase, hid0, hs]

/-- Repeating a successful set_checked_state call with identical arguments
returns the same projection and leaves the store unchanged. -/
theorem set_checked_state_idem (s s₁ : Store) (L I : String) (st : Bool)
    (tl₁ : ToDoList) (h : set_checked_state s L I st = (some tl₁, s₁)) :
    set_checked_state s₁ L I st = (some tl₁, s₁) := by
  cases hL : parseOid L with
  | none => simp [set_checked_state, hL] at h
  | some lid =>
    cases hI : parseOid I with
    | none => simp [set_checked_state, hL, hI] at h
    | some iid =>
      cases hf : s.docs.find?
          (fun e => e.id == lid && e.items.any (fun it => it.id == iid)) with
      | none => simp [set_checked_state, hL, hI, hf] at h
      | some d =>
        have hres := h
        simp only [set_checked_state, hL, hI, hf, Prod.mk.injEq] at hres
        obtain ⟨htl, hs₁⟩ := hres
        obtain rfl : projectList (setItemChecked st iid d) = tl₁ := Option.some.inj htl
        subst hs₁
        have hpd := List.find?_some hf
        have hp' : ((setItemChecked st iid d).id == lid &&
            (setItemChecked st iid d).items.any (fun it => it.id == iid)) = true := by
          rw [setItemChecked_id, setItemChecked_any]
          exact hpd
        have hfind₁ := find?_updateFirst
          (fun e => e.id == lid && e.items.any (fun it => it.id == iid))
          (fun e => e.id == lid && e.items.any (fun it => it.id == iid))
          (setItemChecked st iid) s.docs d hf (fun x hx => hx) hpd hp'
        have hdocstable : updateFirst
            (fun e => e.id == lid && e.items.any (fun it => it.id == iid))
            (setItemChecked st iid)
            (updateFirst (fun e => e.id == lid && e.items.any (fun it => it.id == iid))
              (setItemChecked st iid) s.docs) =
            updateFirst (fun e => e.id == lid && e.items.any (fun it => it.id == iid))
              (setItemChecked st iid) s.docs :=
          updateFirst_stable _ _ _
            (fun x hx => by rw [setItemChecked_id, setItemChecked_any]; exact hx)
            (fun x hx => setItemChecked_stable st iid x)
        simp only [set_checked_state, hL, hI, hfind₁, setItemChecked_stable, hdocstable]

/-- C3: setting the checked state of an item of a list to true makes a
subsequent get show that item checked; setting it back to false restores it
to unchecked; and repeating either call with identical arguments returns
the same projection and leaves the resulting store unchanged. -/
theorem set_checked_then_get_and_idempotence (s : Store) (L : String)
    (tl0 : ToDoList) (it0 : ToDoItem)
    (hWF : StoreWF s) (h1 : get_todo_list s L = some tl0) (h2 : it0 ∈ tl0.items) :
    ∃ tl₁ s₁, set_checked_state s L it0.id true = (some tl₁, s₁) ∧
      get_todo_list s₁ L = some tl₁ ∧
      (∀ it ∈ tl₁.items, it.id = it0.id → it.checked_state = true) ∧
      (∃ it ∈ tl₁.items, it.id = it0.id) ∧
      set_checked_state s₁ L it0.id true = (some tl₁, s₁) ∧
      ∃ tl₂ s₂, set_checked_state s₁ L it0.id false = (some tl₂, s₂) ∧
        get_todo_list s₂ L = some tl₂ ∧
        (∀ it ∈ tl₂.items, it.id = it0.id → it.checked_state = false) ∧
        (∃ it ∈ tl₂.items, it.id = it0.id) ∧
        set_checked_state s₂ L it0.id false = (some tl₂, s₂) := by
  obtain ⟨tl₁, s₁, hset₁, hget₁, hWF₁, _, hitems₁⟩ :=
    set_checked_state_master s L true tl0 it0 hWF h1 h2
  have hmem₁ : (⟨it0.id, it0.label, true⟩ : ToDoItem) ∈ tl₁.items := by
    rw [hitems₁]
    exact List.mem_map.mpr ⟨it0, h2, by simp⟩
  obtain ⟨tl₂, s₂, hset₂, hget₂, hWF₂, _, hitems₂⟩ :=
    set_checked_state_master s₁ L false tl₁ ⟨it0.id, it0.label, true⟩ hWF₁ hget₁ hmem₁
  have hmem₂ : (⟨it0.id, it0.label, false⟩ : ToDoItem) ∈ tl₂.items := by
    rw [hitems₂]
    exact List.mem_map.mpr ⟨⟨it0.id, it0.label, true⟩, hmem₁, by simp⟩
  refine ⟨tl₁, s₁, hset₁, hget₁, ?_, ⟨⟨it0.id, it0.label, true⟩, hmem₁, rfl⟩,
    set_checked_state_idem s s₁ L it0.id true tl₁ hset₁,
    tl₂, s₂, hset₂, hget₂, ?_, ⟨⟨it0.id, it0.label, false⟩, hmem₂, rfl⟩,
    set_checked_state_idem s₁ s₂ L it0.id false tl₂ hset₂⟩
  · intro it hit hid
    rw [hitems₁] at hit
    obtain ⟨a, ha, hfa⟩ := List.mem_map.mp hit
    subst hfa
    by_cases hc : (a.id == it0.id) = true
    · simp [hc]
    · simp only [hc, if_false, Bool.false_eq_true] at hid ⊢
      exact absurd (beq_iff_eq.mpr hid) hc
  · intro it hit hid
    rw [hitems₂] at hit
    obtain ⟨a, ha, hfa⟩ := List.mem_map.mp hit
    subst hfa
    by_cases hc : (a.id == it0.id) = true
    · simp [hc]
    · simp only [hc, if_false, Bool.false_eq_true] at hid ⊢
      exact absurd (beq_iff_eq.mpr hid) hc


/-- C3, witness: on a one-list store holding one unchecked item, checking
the item, re-checking it, unchecking it and re-unchecking it behave as
stated. -/
theorem set_checked_then_get_and_idempotence_on_input :
    ∃ tl₁ s₁, set_checked_state ⟨[⟨0, "g", [⟨1, "x", false⟩]⟩], 2⟩
        (oidToString 0) (oidToString 1) true = (some tl₁, s₁) ∧
      get_todo_list s₁ (oidToString 0) = some tl₁ ∧
      (∀ it ∈ tl₁.items, it.id = oidToString 1 → it.checked_state = true) ∧
      (∃ it ∈ tl₁.items, it.id = oidToString 1) ∧
      set_checked_state s₁ (oidToString 0) (oidToString 1) true = (some tl₁, s₁) ∧
      ∃ tl₂ s₂, set_checked_state s₁ (oidToString 0) (oidToString 1) false =
          (some tl₂, s₂) ∧
        get_todo_list s₂ (oidToString 0) = some tl₂ ∧
        (∀ it ∈ tl₂.items, it.id = oidToString 1 → it.checked_state = false) ∧
        (∃ it ∈ tl₂.items, it.id = oidToString 1) ∧
        set_checked_state s₂ (oidToString 0) (oidToString 1) false = (some tl₂, s₂) :=
  set_checked_then_get_and_idempotence ⟨[⟨0, "g", [⟨1, "x", false⟩]⟩], 2⟩ (oidToString 0)
    ⟨oidToString 0, "g", [⟨oidToString 1, "x", false⟩]⟩ ⟨oidToString 1, "x", false⟩
    ⟨by decide, by decide⟩ (by decide) (by decide)

theorem storeItemInv_create_list (s : Store) (name : String) (h : StoreItemInv s) :
    StoreItemInv (create_todo_list s name).2 := by
  intro d hd
  simp only [create_todo_list] at hd
  rcases List.mem_append.mp hd with hd | hd
  · obtain ⟨h1, h2⟩ := h d hd
    exact ⟨fun it hit => Nat.lt_succ_of_lt (h1 it hit), h2⟩
  · rcases List.mem_singleton.mp hd with rfl
    exact ⟨fun it hit => by simp at hit, by simp⟩

theorem storeItemInv_create_item (s : Store) (lid lbl : String) (h : StoreItemInv s) :
    StoreItemInv (create_item s lid lbl).2 := by
  cases hL : parseOid lid with
  | none => simp only [create_item, hL]; exact h
  | some oid =>
    cases hf : s.docs.find? (fun e => e.id == oid) with
    | none => simp only [create_item, hL, hf]; exact h
    | some d =>
      simp only [create_item, hL, hf]
      intro e he
      obtain ⟨l₁, l₂, hsplit, _, _, hupd⟩ := updateFirst_decomp
        (fun x => x.id == oid)
        (fun _ => (⟨d.id, d.name, d.items ++ [(⟨s.nextOid, lbl, false⟩ : Item)]⟩ : ToDoListDoc))
        s.docs d hf
      rw [hupd] at he
      rcases List.mem_append.mp he with he | he
      · obtain ⟨h1, h2⟩ := h e (by rw [hsplit]; exact List.mem_append_left _ he)
        exact ⟨fun it hit => Nat.lt_succ_of_lt (h1 it hit), h2⟩
      · rcases List.mem_cons.mp he with rfl | he
        · obtain ⟨h1, h2⟩ := h d (List.mem_of_find?_eq_some hf)
          constructor
          · intro it hit
            rcases List.mem_append.mp hit with hit | hit
            · exact Nat.lt_succ_of_lt (h1 it hit)
            · rcases List.mem_singleton.mp hit with rfl
              exact Nat.lt_succ_self _
          · rw [List.map_append, List.nodup_append]
            refine ⟨h2, by simp, ?_⟩
            intro a ha hb
            simp only [List.map_cons, List.map_nil, List.mem_singleton] at hb
            subst hb
            obtain ⟨it₂, hit₂, hid₂⟩ := List.mem_map.mp ha
            have hlt := h1 it₂ hit₂
            rw [hid₂] at hlt
            exact absurd hlt (lt_irrefl _)
        · obtain ⟨h1, h2⟩ := h e
            (by rw [hsplit]; exact List.mem_append_right _ (List.mem_cons_of_mem _ he))
          exact ⟨fun it hit => Nat.lt_succ_of_lt (h1 it hit), h2⟩

theorem storeItemInv_set_checked (s : Store) (lid iid : String) (st : Bool)
    (h : StoreItemInv s) : StoreItemInv (set_checked_state s lid iid st).2 := by
  cases hL : parseOid lid with
  | none => simp only [set_checked_state, hL]; exact h
  | some l =>
    cases hI : parseOid iid with
    | none => simp only [set_checked_state, hL, hI]; exact h
    | some i =>
      cases hf : s.docs.find? (fun e => e.id == l && e.items.any (fun it => it.id == i)) with
      | none => simp only [set_checked_state, hL, hI, hf]; exact h
      | some d =>
        simp only [set_checked_state, hL, hI, hf]
        intro e he
        obtain ⟨l₁, l₂, hsplit, _, _, hupd⟩ := updateFirst_decomp
          (fun x => x.id == l && x.items.any (fun it => it.id == i))
          (setItemChecked st i) s.docs d hf
        rw [hupd] at he
        have hmapid : (setItemChecked st i d).items.map Item.id = d.items.map Item.id :=
          map_updateFirst _ _ _ _ (fun x => rfl)
        rcases List.mem_append.mp he with he | he
        · exact h e (by rw [hsplit]; exact List.mem_append_left _ he)
        · rcases List.mem_cons.mp he with rfl | he
          · obtain ⟨h1, h2⟩ := h d (List.mem_of_find?_eq_some hf)
            constructor
            · intro it hit
              have hmm : it.id ∈ d.items.map Item.id := by
                rw [← hmapid]
                exact List.mem_map_of_mem _ hit
              obtain ⟨it₂, hit₂, hid₂⟩ := List.mem_map.mp hmm
              rw [← hid₂]
              exact h1 it₂ hit₂
            · rw [hmapid]
              exact h2
          · exact h e
              (by rw [hsplit]; exact List.mem_append_right _ (List.mem_cons_of_mem _ he))

theorem storeItemInv_delete (s : Store) (lid : String) (h : StoreItemInv s) :
    StoreItemInv (delete_todo_list s lid).2 := by
  cases hL : parseOid lid with
  | none => simp only [delete_todo_list, hL]; exact h
  | some l =>
    cases hAny : s.docs.any (fun d => d.id == l) with
    | false => simp [delete_todo_list, hL, hAny]; exact h
    | true =>
      simp [delete_todo_list, hL, hAny]
      intro e he
      exact h e (List.mem_of_mem_eraseP he)

/-- Every reachable store state satisfies the item-id invariant. -/
theorem storeItemInv_reachable (s : Store) (h : Reachable s) : StoreItemInv s := by
  induction h with
  | empty => intro d hd; simp at hd
  | createList s name hs ih => exact storeItemInv_create_list s name ih
  | createItem s lid lbl hs ih => exact storeItemInv_create_item s lid lbl ih
  | setChecked s lid iid st hs ih => exact storeItemInv_set_checked s lid iid st ih
  | deleteList s lid hs ih => exact storeItemInv_delete s lid ih

/-- C9: in every store state reachable from the initial empty collection by
any sequence of create_todo_list, create_item, set_checked_state and
delete_todo_list, the item ids within each list document are pairwise
distinct. -/
theorem item_ids_unique_in_reachable_states (s : Store) (h : Reachable s) :
    ∀ d ∈ s.docs, (d.items.map Item.id).Nodup :=
  fun d hd => (storeItemInv_reachable s h d hd).2

/-- C9, witness: the reachable state obtained by creating a list and adding
two items has pairwise distinct item ids in its single document. -/
theorem item_ids_unique_in_reachable_states_on_input :
    ((⟨0, "g", [⟨1, "a", false⟩, ⟨2, "b", false⟩]⟩ : ToDoListDoc).items.map Item.id).Nodup :=
  item_ids_unique_in_reachable_states
    (create_item (create_item (create_todo_list ⟨[], 0⟩ "g").2 (oidToString 0) "a").2
      (oidToString 0) "b").2
    (Reachable.createItem _ _ _ (Reachable.createItem _ _ _
      (Reachable.createList _ _ Reachable.empty)))
    ⟨0, "g", [⟨1, "a", false⟩, ⟨2, "b", false⟩]⟩ (by decide)

/-! ## Claim theorems -/

/-- C1, counterexample: the claim says an empty name is rejected with 422,
but pydantic's `name: str` accepts the empty string — the request with
`{"name": ""}` succeeds with 201 and a list document is written to the
store. -/
theorem create_route_accepts_empty_name :
    (create_todo_list_route ⟨[], 0⟩ (Json.obj [("name", Json.str "")])).1.1 = 201 ∧
    (create_todo_list_route ⟨[], 0⟩ (Json.obj [("name", Json.str "")])).2 ≠ (⟨[], 0⟩ : Store) := by
  constructor
  · rfl
  · decide

/-- C1, amended: for every POST /api/lists body that is a JSON object whose
name field is missing or is not a string, the route layer rejects the
request with 422 and no store write occurs; a body whose name is a string —
the empty string included — passes validation. -/
theorem create_route_rejects_missing_or_nonstring_name (s : Store)
    (fields : List (String × Json))
    (h : fields.lookup "name" = none ∨ ∀ t, fields.lookup "name" ≠ some (Json.str t)) :
    create_todo_list_route s (Json.obj fields) = ((422, none), s) := by
  have hv : validateNewList (Json.obj fields) = none := by
    rcases h with h | h
    · simp [validateNewList, h]
    · cases hl : fields.lookup "name" with
      | none => simp [validateNewList, hl]
      | some j =>
        cases j with
        | str t => exact absurd hl (h t)
        | null => simp [validateNewList, hl]
        | bool b => simp [validateNewList, hl]
        | num n => simp [validateNewList, hl]
        | arr xs => simp [validateNewList, hl]
        | obj fs => simp [validateNewList, hl]
  simp [create_todo_list_route, hv]

/-- C1, witness: a body with a numeric name is rejected with 422 and the
store is left untouched. -/
theorem create_route_rejects_nonstring_name_on_input :
    create_todo_list_route ⟨[], 0⟩ (Json.obj [("name", Json.num 5)]) =
      ((422, none), (⟨[], 0⟩ : Store)) :=
  create_route_rejects_missing_or_nonstring_name ⟨[], 0⟩ [("name", Json.num 5)]
    (Or.inr (fun t ht => by simp [List.lookup] at ht))

/-- C4: when the item addressed by item_id does not belong to the list
addressed by list_id (it lives in a different list, or nowhere),
set_checked_state signals not-found and the store — the foreign list
included — is left completely unchanged. -/
theorem set_checked_state_foreign_item_not_found (s : Store) (L I : String) (st : Bool)
    (h : ∀ d ∈ s.docs, parseOid L = some d.id → ∀ it ∈ d.items, parseOid I ≠ some it.id) :
    set_checked_state s L I st = (none, s) := by
  cases hL : parseOid L with
  | none => simp [set_checked_state, hL]
  | some lid =>
    cases hI : parseOid I with
    | none => simp [set_checked_state, hL, hI]
    | some iid =>
      have hf : s.docs.find?
          (fun d => d.id == lid && d.items.any (fun it => it.id == iid)) = none := by
        rw [List.find?_eq_none]
        intro d hd hp
        simp only [Bool.and_eq_true, beq_iff_eq, List.any_eq_true] at hp
        obtain ⟨hid, it, hit, hiid⟩ := hp
        exact h d hd (by rw [hL, hid]) it hit (by rw [hI, hiid])
      simp [set_checked_state, hL, hI, hf]

/-- C4, witness: with two stored lists, addressing list 2 with the id of an
item that belongs to list 0 yields not-found and an unchanged store. -/
theorem set_checked_state_foreign_item_not_found_on_input :
    set_checked_state ⟨[⟨0, "a", [⟨1, "x", false⟩]⟩, ⟨2, "b", []⟩], 3⟩
        (oidToString 2) (oidToString 1) true =
      (none, (⟨[⟨0, "a", [⟨1, "x", false⟩]⟩, ⟨2, "b", []⟩], 3⟩ : Store)) :=
  set_checked_state_foreign_item_not_found _ _ _ _ (by decide)

/-- C6: creating a list with a valid non-empty name and then fetching the
returned id yields a list with that name and an empty item sequence. -/
theorem create_then_get_roundtrip (s : Store) (n : String) (hn : n ≠ "")
    (hlt : s.nextOid < 16 ^ 24) (hfresh : ∀ d ∈ s.docs, d.id ≠ s.nextOid) :
    get_todo_list (create_todo_list s n).2 (create_todo_list s n).1 =
      some ⟨(create_todo_list s n).1, n, []⟩ := by
  have hp : parseOid (oidToString s.nextOid) = some s.nextOid :=
    parseOid_oidToString_of_lt _ hlt
  simp only [create_todo_list, get_todo_list, hp]
  rw [List.find?_append]
  have h1 : s.docs.find? (fun d => d.id == s.nextOid) = none :=
    List.find?_eq_none.mpr (fun d hd => by simp [hfresh d hd])
  rw [h1]
  simp [List.find?, projectList]

/-- C6, witness: on the empty store, creating "Groceries" and fetching the
returned id yields that named list with no items. -/
theorem create_then_get_roundtrip_on_input :
    get_todo_list (create_todo_list ⟨[], 0⟩ "Groceries").2
        (create_todo_list ⟨[], 0⟩ "Groceries").1 =
      some ⟨(create_todo_list ⟨[], 0⟩ "Groceries").1, "Groceries", []⟩ :=
  create_then_get_roundtrip ⟨[], 0⟩ "Groceries" (by decide) (by norm_num)
    (by intro d hd; simp at hd)

/-- C7: an identifier string that is not 24 hex characters parses to nothing,
so get_todo_list, create_item and set_checked_state (in either id position)
signal plain not-found with the store unchanged — exactly the outcome for a
well-formed but absent id — and delete_todo_list returns false; no distinct
validation error exists on these paths. -/
theorem malformed_id_treated_as_not_found (s : Store) (id iid lid lbl : String) (st : Bool)
    (h : id.data.length ≠ 24 ∨ ∃ c ∈ id.data, hexVal c = none) :
    get_todo_list s id = none ∧
    delete_todo_list s id = (false, s) ∧
    create_item s id lbl = (none, s) ∧
    set_checked_state s id iid st = (none, s) ∧
    set_checked_state s lid id st = (none, s) := by
  have hp := parseOid_eq_none_of_malformed h
  refine ⟨?_, ?_, ?_, ?_, ?_⟩
  · simp [get_todo_list, hp]
  · simp [delete_todo_list, hp]
  · simp [create_item, hp]
  · simp [set_checked_state, hp]
  · cases hq : parseOid lid <;> simp [set_checked_state, hp, hq]

/-- C7, witness: the malformed identifier "not-a-valid-id" is treated as
not-found by every operation, and delete returns false. -/
theorem malformed_id_treated_as_not_found_on_input :
    get_todo_list ⟨[], 0⟩ "not-a-valid-id" = none ∧
    delete_todo_list ⟨[], 0⟩ "not-a-valid-id" = (false, ⟨[], 0⟩) ∧
    create_item ⟨[], 0⟩ "not-a-valid-id" "Milk" = (none, ⟨[], 0⟩) ∧
    set_checked_state ⟨[], 0⟩ "not-a-valid-id" "" true = (none, ⟨[], 0⟩) ∧
    set_checked_state ⟨[], 0⟩ "" "not-a-valid-id" true = (none, ⟨[], 0⟩) :=
  malformed_id_treated_as_not_found ⟨[], 0⟩ "not-a-valid-id" "" "" "Milk" true
    (Or.inl (by decide))

/-- C2: for every existing list L and every label, create_item succeeds and
a subsequent get_todo_list shows the very list it returned: the new item is
appended after all pre-existing items (their order preserved), carries the
given label with checked_state false, and the item count grows by exactly
one. -/
theorem create_item_appends_new_unchecked_item (s : Store) (L lbl : String)
    (before : ToDoList) (h : get_todo_list s L = some before) :
    ∃ tl s', create_item s L lbl = (some tl, s') ∧
      get_todo_list s' L = some tl ∧
      tl.items = before.items ++ [⟨oidToString s.nextOid, lbl, false⟩] ∧
      tl.items.length = before.items.length + 1 := by
  cases hL : parseOid L with
  | none => simp [get_todo_list, hL] at h
  | some lid =>
    simp only [get_todo_list, hL] at h
    obtain ⟨d, hd, hproj⟩ := Option.map_eq_some'.mp h
    have hpd := List.find?_some hd
    have hci : create_item s L lbl =
        (some (projectList ⟨d.id, d.name, d.items ++ [⟨s.nextOid, lbl, false⟩]⟩),
         ⟨updateFirst (fun e => e.id == lid)
            (fun _ => ⟨d.id, d.name, d.items ++ [⟨s.nextOid, lbl, false⟩]⟩) s.docs,
          s.nextOid + 1⟩) := by
      simp [create_item, hL, hd]
    refine ⟨_, _, hci, ?_, ?_, ?_⟩
    · simp only [get_todo_list, hL]
      have hfu : (updateFirst (fun e => e.id == lid)
          (fun _ => (⟨d.id, d.name, d.items ++ [(⟨s.nextOid, lbl, false⟩ : Item)]⟩ : ToDoListDoc))
          s.docs).find? (fun e => e.id == lid) =
          some (⟨d.id, d.name, d.items ++ [(⟨s.nextOid, lbl, false⟩ : Item)]⟩ : ToDoListDoc) :=
        find?_updateFirst _ _ _ s.docs d hd (fun x hx => hx) hpd hpd
      rw [hfu]
      rfl
    · have hbi : before.items = d.items.map projectItem := by rw [← hproj]; rfl
      simp [projectList, projectItem, hbi]
    · have hbi : before.items = d.items.map projectItem := by rw [← hproj]; rfl
      simp [projectList, hbi]

/-- C2, witness: adding "Milk" to a freshly created singleton store appends
one unchecked item. -/
theorem create_item_appends_new_unchecked_item_on_input :
    ∃ tl s', create_item ⟨[⟨0, "g", []⟩], 1⟩ (oidToString 0) "Milk" = (some tl, s') ∧
      get_todo_list s' (oidToString 0) = some tl ∧
      tl.items = (⟨oidToString 0, "g", []⟩ : ToDoList).items ++
        [⟨oidToString (⟨[⟨0, "g", []⟩], 1⟩ : Store).nextOid, "Milk", false⟩] ∧
      tl.items.length = (⟨oidToString 0, "g", []⟩ : ToDoList).items.length + 1 :=
  create_item_appends_new_unchecked_item ⟨[⟨0, "g", []⟩], 1⟩ (oidToString 0) "Milk"
    ⟨oidToString 0, "g", []⟩ (by decide)

/-- C5: delete_todo_list returns true exactly when a stored document matches
the id, and then exactly one document is removed, a subsequent get on the id
signals not-found, no remaining document (hence none of the deleted list's
items) belongs to that id, and a second identical delete returns false; when
nothing matches, the result is the boolean false with the store unchanged —
never an error. -/
theorem delete_todo_list_spec (s : Store) (L : String)
    (hNd : (s.docs.map ToDoListDoc.id).Nodup) :
    ((delete_todo_list s L).1 = true ↔ ∃ d ∈ s.docs, parseOid L = some d.id) ∧
    ((delete_todo_list s L).1 = true →
      (delete_todo_list s L).2.docs.length + 1 = s.docs.length) ∧
    ((delete_todo_list s L).1 = false → (delete_todo_list s L).2 = s) ∧
    ((delete_todo_list s L).1 = true →
      get_todo_list (delete_todo_list s L).2 L = none ∧
      ∀ d ∈ (delete_todo_list s L).2.docs, ¬ parseOid L = some d.id) ∧
    (delete_todo_list (delete_todo_list s L).2 L).1 = false := by
  cases hL : parseOid L with
  | none =>
    simp [delete_todo_list, hL]
  | some lid =>
    cases hAny : s.docs.any (fun d => d.id == lid) with
    | false =>
      have hnomatch : ∀ d ∈ s.docs, d.id ≠ lid := by
        intro d hd he
        rw [Bool.eq_false_iff] at hAny
        exact hAny (List.any_eq_true.mpr ⟨d, hd, by simp [he]⟩)
      have hdel : delete_todo_list s L = (false, s) := by
        simp [delete_todo_list, hL, hAny]
      refine ⟨?_, ?_, ?_, ?_, ?_⟩
      · rw [hdel]
        simp only [hL]
        constructor
        · intro hfalse; cases hfalse
        · rintro ⟨d, hd, he⟩
          exact absurd (Option.some.inj he).symm (hnomatch d hd)
      · rw [hdel]; intro hfalse; cases hfalse
      · rw [hdel]; intro; rfl
      · rw [hdel]; intro hfalse; cases hfalse
      · rw [hdel]; simp [delete_todo_list, hL, hAny]
    | true =>
      obtain ⟨d₀, hd₀, hp₀⟩ := List.any_eq_true.mp hAny
      obtain ⟨a, l₁, l₂, hl₁, hpa, hsplit, herase⟩ :=
        @List.exists_of_eraseP _ (fun d => d.id == lid) s.docs d₀ hd₀ hp₀
      have haid : a.id = lid := by simpa using hpa
      have hdel : delete_todo_list s L =
          (true, ⟨s.docs.eraseP (fun d => d.id == lid), s.nextOid⟩) := by
        simp [delete_todo_list, hL, hAny]
      have hl₂ : ∀ b ∈ l₂, b.id ≠ lid := by
        intro b hb he
        have hmap : s.docs.map ToDoListDoc.id =
            l₁.map ToDoListDoc.id ++ a.id :: l₂.map ToDoListDoc.id := by
          rw [hsplit]; simp
        rw [hmap, List.nodup_append] at hNd
        have := (List.nodup_cons.mp hNd.2.1).1
        exact this (by rw [haid, ← he]; exact List.mem_map_of_mem _ hb)
      have hrest : ∀ b ∈ s.docs.eraseP (fun d => d.id == lid), b.id ≠ lid := by
        rw [herase]
        intro b hb
        rcases List.mem_append.mp hb with hb | hb
        · have := hl₁ b hb; simpa using this
        · exact hl₂ b hb
      refine ⟨?_, ?_, ?_, ?_, ?_⟩
      · rw [hdel]
        exact ⟨fun _ => ⟨a, by rw [hsplit]; simp, by rw [haid]⟩, fun _ => rfl⟩
      · rw [hdel]
        intro
        exact List.length_eraseP_add_one hd₀ hp₀
      · rw [hdel]; intro hcon; cases hcon
      · rw [hdel]
        intro
        constructor
        · simp only [get_todo_list, hL]
          rw [List.find?_eq_none.mpr (fun b hb => by simp [hrest b hb])]
          rfl
        · intro b hb he
          exact hrest b hb (Option.some.inj he).symm
      · rw [hdel]
        have : (s.docs.eraseP (fun d => d.id == lid)).any (fun d => d.id == lid) = false := by
          rw [Bool.eq_false_iff]
          intro hc
          obtain ⟨b, hb, hbe⟩ := List.any_eq_true.mp hc
          exact hrest b hb (by simpa using hbe)
        simp [delete_todo_list, hL, this]

/-- C5, witness: deleting the single stored list succeeds, removes it, a
get afterwards signals not-found, and a second delete returns false. -/
theorem delete_todo_list_spec_on_input :
    ((delete_todo_list ⟨[⟨0, "g", []⟩], 1⟩ (oidToString 0)).1 = true ↔
      ∃ d ∈ (⟨[⟨0, "g", []⟩], 1⟩ : Store).docs, parseOid (oidToString 0) = some d.id) ∧
    ((delete_todo_list ⟨[⟨0, "g", []⟩], 1⟩ (oidToString 0)).1 = true →
      (delete_todo_list ⟨[⟨0, "g", []⟩], 1⟩ (oidToString 0)).2.docs.length + 1 =
        (⟨[⟨0, "g", []⟩], 1⟩ : Store).docs.length) ∧
    ((delete_todo_list ⟨[⟨0, "g", []⟩], 1⟩ (oidToString 0)).1 = false →
      (delete_todo_list ⟨[⟨0, "g", []⟩], 1⟩ (oidToString 0)).2 = ⟨[⟨0, "g", []⟩], 1⟩) ∧
    ((delete_todo_list ⟨[⟨0, "g", []⟩], 1⟩ (oidToString 0)).1 = true →
      get_todo_list (delete_todo_list ⟨[⟨0, "g", []⟩], 1⟩ (oidToString 0)).2 (oidToString 0) = none ∧
      ∀ d ∈ (delete_todo_list ⟨[⟨0, "g", []⟩], 1⟩ (oidToString 0)).2.docs,
        ¬ parseOid (oidToString 0) = some d.id) ∧
    (delete_todo_list (delete_todo_list ⟨[⟨0, "g", []⟩], 1⟩ (oidToString 0)).2 (oidToString 0)).1 =
      false :=
  delete_todo_list_spec ⟨[⟨0, "g", []⟩], 1⟩ (oidToString 0) (by decide)

/-- C8: list_todo_lists yields exactly one summary per stored document, and
each summary's name, item_count and checked_count agree with independently
fetching the corresponding full list via get_todo_list and counting its
items there. -/
theorem list_summaries_agree_with_full_lists (s : Store)
    (hlt : ∀ d ∈ s.docs, d.id < 16 ^ 24)
    (hNd : (s.docs.map ToDoListDoc.id).Nodup) :
    (list_todo_lists s).length = s.docs.length ∧
    ∀ sm ∈ list_todo_lists s, ∃ tl : ToDoList,
      get_todo_list s sm.id = some tl ∧ sm.id = tl.id ∧ sm.name = tl.name ∧
      sm.item_count = tl.items.length ∧
      sm.checked_count = (tl.items.filter (fun it => it.checked_state)).length := by
  constructor
  · simp [list_todo_lists]
  · intro sm hsm
    rw [list_todo_lists, List.mem_map] at hsm
    obtain ⟨d, hd, rfl⟩ := hsm
    refine ⟨projectList d, ?_, rfl, rfl, ?_, ?_⟩
    · have hp : parseOid (oidToString d.id) = some d.id :=
        parseOid_oidToString_of_lt _ (hlt d hd)
      simp only [get_todo_list, summarize, hp]
      rw [find?_eq_some_of_unique (fun e => e.id == d.id) s.docs d hd (by simp)
        (fun x hx hpx => List.inj_on_of_nodup_map hNd hx hd (by simpa using hpx))]
      rfl
    · simp [summarize, projectList]
    · simp only [summarize, projectList]
      rw [List.filter_map, List.length_map]
      exact congrArg List.length (List.filter_congr (fun a ha => rfl))

/-- C8, witness: one stored list with one checked and one unchecked item
gets a summary with item_count 2 and checked_count 1, matching the fetched
full list. -/
theorem list_summaries_agree_with_full_lists_on_input :
    (list_todo_lists ⟨[⟨0, "g", [⟨1, "x", true⟩, ⟨2, "y", false⟩]⟩], 3⟩).length =
      (⟨[⟨0, "g", [⟨1, "x", true⟩, ⟨2, "y", false⟩]⟩], 3⟩ : Store).docs.length ∧
    ∀ sm ∈ list_todo_lists ⟨[⟨0, "g", [⟨1, "x", true⟩, ⟨2, "y", false⟩]⟩], 3⟩,
      ∃ tl : ToDoList,
        get_todo_list ⟨[⟨0, "g", [⟨1, "x", true⟩, ⟨2, "y", false⟩]⟩], 3⟩ sm.id = some tl ∧
        sm.id = tl.id ∧ sm.name = tl.name ∧
        sm.item_count = tl.items.length ∧
        sm.checked_count = (tl.items.filter (fun it => it.checked_state)).length :=
  list_summaries_agree_with_full_lists ⟨[⟨0, "g", [⟨1, "x", true⟩, ⟨2, "y", false⟩]⟩], 3⟩
    (by intro d hd; simp at hd; subst hd; norm_num) (by decide)

/-- C10: GET /api/dummy always succeeds with status 200, its body carries a
generated 24-hex-character identifier string and a timestamp, and the call
performs no read or write against the store: the store after the call is
exactly the store before. -/
theorem dummy_route_leaves_store_unchanged (s : Store) (gen now : Nat) :
    (get_dummy_route s gen now).2 = s ∧
    (get_dummy_route s gen now).1.1 = 200 ∧
    (get_dummy_route s gen now).1.2.1.data.length = 24 ∧
    ∀ c ∈ (get_dummy_route s gen now).1.2.1.data, (hexVal c).isSome := by
  refine ⟨rfl, rfl, ?_, ?_⟩
  · exact length_hexDigits 24 gen
  · exact hexDigits_all_hex 24 gen

end TodoApp
